import Mathlib

/-!
Verification of the position ledger and order tracker of the enhanced
trading bot (`enhanced_trading_bot.py`).

Quantities and prices are modelled as rationals.  The positions
dictionary is modelled as an association list with first-occurrence
lookup; assignment replaces the first binding of a key and appends a
new binding otherwise, matching Python dict semantics (insertion order
kept, at most one binding per key in every reachable state).  The
positions file is modelled as an explicit `StoreState`; a write that
fails with an `IOError` is caught and logged by the source, which is
modelled by the `writeOk` flag: on `false` the store is left as it was
and the operation still returns normally.  The exchange gateway is an
external collaborator: its responses to the single create-order call
and the single status query are supplied as a `GatewayEnv` oracle, and
the requests the tracker sends to it are collected as a list of
`GatewayCall` events returned alongside the result.
-/

namespace TradingBot

/-- In-memory positions mapping: symbol to signed net quantity. -/
abbrev Positions := List (String × ℚ)

/-- The durable positions file: absent, unreadable or corrupt, or
holding a stored mapping. -/
inductive StoreState where
  | absent
  | corrupt
  | stored (data : Positions)
deriving DecidableEq

/-- The bot's ledger-relevant state: the in-memory mapping and the
durable store. -/
structure BotState where
  positions : Positions
  store : StoreState
deriving DecidableEq

/-- The ledger before any fill, with no positions file on disk. -/
def emptyState : BotState := { positions := [], store := StoreState.absent }

/-- Model of `_load_positions`: read the store; an absent, unreadable or corrupt
file yields the empty mapping (the error is logged, never raised). -/
def load_positions : StoreState → Positions
  | StoreState.stored d => d
  | _ => []

/-- Model of `_save_positions`: write the whole mapping to the store; an
`IOError` is caught and logged, leaving the store as it was. -/
def save_positions (ps : Positions) (store : StoreState) (writeOk : Bool) : StoreState :=
  if writeOk then StoreState.stored ps else store

/-- Model of `get_position`: the net quantity recorded for `symbol`, `0` when
the symbol has no record. -/
def get_position (ps : Positions) (symbol : String) : ℚ :=
  match ps.lookup symbol with
  | some q => q
  | none => 0

/-- Python dict assignment `positions[symbol] = q`: replace the first
binding of `symbol`, or append a new binding at the end. -/
def setPos : Positions → String → ℚ → Positions
  | [], s, q => [(s, q)]
  | (k, v) :: rest, s, q =>
      if k = s then (s, q) :: rest else (k, v) :: setPos rest s q

/-- Model of `update_position`: take the absolute value of `quantity`, add it to
the current position on a buy and subtract it on a sell, write the
mapping back into the store, and return the new net quantity together
with the new state. -/
def update_position (st : BotState) (symbol : String) (quantity : ℚ)
    (is_buy : Bool) (writeOk : Bool) : ℚ × BotState :=
  let q := |quantity|
  let current := get_position st.positions symbol
  let new_position := if is_buy then current + q else current - q
  let ps := setPos st.positions symbol new_position
  (new_position, { positions := ps, store := save_positions ps st.store writeOk })

/-- Model of `get_all_positions`: the symbols whose net quantity is non-zero. -/
def get_all_positions (ps : Positions) : Positions :=
  ps.filter (fun p => decide (p.2 ≠ 0))

/-- One `apply_fill` request. -/
structure Fill where
  symbol : String
  quantity : ℚ
  is_buy : Bool

/-- The signed contribution of one fill: `+|q|` for a buy, `-|q|` for a
sell. -/
def signedQty (f : Fill) : ℚ := if f.is_buy then |f.quantity| else -|f.quantity|

/-- Apply a sequence of fills in order (writes succeeding). -/
def applyFills (st : BotState) (fills : List Fill) : BotState :=
  fills.foldl (fun s f => (update_position s f.symbol f.quantity f.is_buy true).2) st

/-- The sum of the signed quantities of the fills addressed to `s`. -/
def signedSum (fills : List Fill) (s : String) : ℚ :=
  ((fills.filter (fun f => f.symbol == s)).map signedQty).sum

/-- Python's `str.upper()` on the side string, written over the
character list so that it evaluates by kernel reduction. -/
def strUpper (s : String) : String := String.mk (s.data.map Char.toUpper)

/-- The parameter record sent with `futures_create_order`. -/
structure OrderParams where
  symbol : String
  side : String
  type : String
  timeInForce : Option String
  quantity : ℚ
  price : Option ℚ
  stopPrice : Option ℚ
deriving DecidableEq

/-- One request issued to the exchange gateway. -/
inductive GatewayCall where
  | createOrder (params : OrderParams)
  | getOrder (symbol : String) (orderId : Nat)
deriving DecidableEq

/-- The record returned by the gateway's status query. -/
structure OrderResult where
  orderId : Nat
  status : String
  executedQty : ℚ
deriving DecidableEq

/-- The gateway's responses for one place-order cycle: the order id in
the create-order response and the result of the single status query. -/
structure GatewayEnv where
  orderId : Nat
  statusResult : OrderResult
deriving DecidableEq

/-- What a `place_*` function hands back on success: the order-status
record, with `final_quantity` added when the ledger was updated. -/
structure OrderView where
  result : OrderResult
  final_quantity : Option ℚ
deriving DecidableEq

/-- The outcome of a place-order call: a `ValueError` message or the
order view with the new bot state, paired with the list of requests
that reached the gateway. -/
abbrev PlaceOutcome := Except String (OrderView × BotState) × List GatewayCall

/-- Model of `place_market_order`: reject a missing quantity before any network
contact; otherwise submit a MARKET order, query its status once, and
update the position unconditionally (no status check), returning the
status record with `final_quantity` set. -/
def place_market_order (st : BotState) (env : GatewayEnv) (writeOk : Bool)
    (symbol side : String) (quantity : Option ℚ) : PlaceOutcome :=
  match quantity with
  | none => (Except.error "Quantity must be specified for market orders", [])
  | some q =>
      let params : OrderParams :=
        { symbol := symbol, side := side, type := "MARKET", timeInForce := none,
          quantity := q, price := none, stopPrice := none }
      let calls := [GatewayCall.createOrder params, GatewayCall.getOrder symbol env.orderId]
      let order_status := env.statusResult
      let is_buy := strUpper side == "BUY"
      let r := update_position st symbol q is_buy writeOk
      (Except.ok ({ result := order_status, final_quantity := some r.1 }, r.2), calls)

/-- Model of `place_limit_order`: reject a missing quantity or price before any
network contact; otherwise submit a GTC LIMIT order, query its status
once, and update the position only when that status is `FILLED`. -/
def place_limit_order (st : BotState) (env : GatewayEnv) (writeOk : Bool)
    (symbol side : String) (quantity price : Option ℚ) : PlaceOutcome :=
  match quantity, price with
  | some q, some p =>
      let params : OrderParams :=
        { symbol := symbol, side := side, type := "LIMIT", timeInForce := some "GTC",
          quantity := q, price := some p, stopPrice := none }
      let calls := [GatewayCall.createOrder params, GatewayCall.getOrder symbol env.orderId]
      let order_status := env.statusResult
      let is_buy := strUpper side == "BUY"
      if order_status.status == "FILLED" then
        let r := update_position st symbol q is_buy writeOk
        (Except.ok ({ result := order_status, final_quantity := some r.1 }, r.2), calls)
      else
        (Except.ok ({ result := order_status, final_quantity := none }, st), calls)
  | _, _ => (Except.error "Both quantity and price must be specified for limit orders", [])

/-- Model of `place_stop_limit_order`: reject a missing quantity, price or stop
price before any network contact; otherwise submit a GTC STOP order,
query its status once, and update the position only when that status
is `FILLED`. -/
def place_stop_limit_order (st : BotState) (env : GatewayEnv) (writeOk : Bool)
    (symbol side : String) (quantity price stop_price : Option ℚ) : PlaceOutcome :=
  match quantity, price, stop_price with
  | some q, some p, some sp =>
      let params : OrderParams :=
        { symbol := symbol, side := side, type := "STOP", timeInForce := some "GTC",
          quantity := q, price := some p, stopPrice := some sp }
      let calls := [GatewayCall.createOrder params, GatewayCall.getOrder symbol env.orderId]
      let order_status := env.statusResult
      let is_buy := strUpper side == "BUY"
      if order_status.status == "FILLED" then
        let r := update_position st symbol q is_buy writeOk
        (Except.ok ({ result := order_status, final_quantity := some r.1 }, r.2), calls)
      else
        (Except.ok ({ result := order_status, final_quantity := none }, st), calls)
  | _, _, _ =>
      (Except.error "Quantity, price, and stop_price must be specified for stop limit orders", [])

/-- The bot state a place-order call ends in, when it succeeded. -/
def placedState (r : PlaceOutcome) : Option BotState :=
  match r.1 with
  | Except.ok (_, st) => some st
  | Except.error _ => none

/-- The order view a place-order call returned, when it succeeded. -/
def placedView (r : PlaceOutcome) : Option OrderView :=
  match r.1 with
  | Except.ok (v, _) => some v
  | Except.error _ => none

/-! ### Basic lemmas about the positions mapping -/

theorem lookup_setPos (ps : Positions) (s : String) (q : ℚ) (t : String) :
    (setPos ps s q).lookup t = if t = s then some q else ps.lookup t := by
  induction ps with
  | nil =>
      by_cases hts : t = s <;>
        · have hb : (t == s) = (decide (t = s)) := by simp [hts]
          simp [setPos, List.lookup, hts, hb]
  | cons p rest ih =>
      obtain ⟨k, v⟩ := p
      by_cases hks : k = s
      · subst hks
        by_cases htk : t = k <;>
          · have hb : (t == k) = (decide (t = k)) := by simp [htk]
            simp [setPos, List.lookup, htk, hb]
      · by_cases htk : t = k
        · subst htk
          have hb : (t == t) = true := by simp
          simp [setPos, hks, List.lookup, Ne.symm hks, hb]
        · have hb : (t == k) = false := by simp [htk]
          simp [setPos, hks, List.lookup, htk, hb, ih]

theorem get_position_setPos (ps : Positions) (s : String) (q : ℚ) (t : String) :
    get_position (setPos ps s q) t = if t = s then q else get_position ps t := by
  simp only [get_position, lookup_setPos]
  by_cases hts : t = s <;> simp [hts]

theorem lookup_eq_none_of_not_mem_keys (ps : Positions) (s : String)
    (h : s ∉ ps.map Prod.fst) : ps.lookup s = none := by
  induction ps with
  | nil => simp [List.lookup]
  | cons p rest ih =>
      obtain ⟨k, v⟩ := p
      simp only [List.map_cons, List.mem_cons, not_or] at h
      have hb : (s == k) = false := by simp [h.1]
      simp [List.lookup, hb, ih h.2]

theorem get_position_eq_zero_of_not_mem_keys (ps : Positions) (s : String)
    (h : s ∉ ps.map Prod.fst) : get_position ps s = 0 := by
  simp [get_position, lookup_eq_none_of_not_mem_keys ps s h]

theorem map_fst_setPos (ps : Positions) (s : String) (q : ℚ) :
    (setPos ps s q).map Prod.fst =
      if s ∈ ps.map Prod.fst then ps.map Prod.fst else ps.map Prod.fst ++ [s] := by
  induction ps with
  | nil => simp [setPos]
  | cons p rest ih =>
      obtain ⟨k, v⟩ := p
      by_cases hks : k = s
      · subst hks; simp [setPos]
      · by_cases hmem : s ∈ rest.map Prod.fst <;>
          simp [setPos, hks, Ne.symm hks, hmem, ih]

theorem nodup_keys_setPos (ps : Positions) (s : String) (q : ℚ)
    (h : (ps.map Prod.fst).Nodup) : ((setPos ps s q).map Prod.fst).Nodup := by
  rw [map_fst_setPos]
  split_ifs with hmem
  · exact h
  · simp [List.nodup_append, h, hmem]

theorem lookup_snapshot (ps : Positions) (h : (ps.map Prod.fst).Nodup) (s : String) :
    (get_all_positions ps).lookup s =
      if get_position ps s = 0 then none else some (get_position ps s) := by
  induction ps with
  | nil => simp [get_all_positions, get_position, List.lookup]
  | cons p rest ih =>
      obtain ⟨k, v⟩ := p
      rw [List.map_cons, List.nodup_cons] at h
      have ihr := ih h.2
      by_cases hsk : s = k
      · subst hsk
        have h0 : get_position rest s = 0 :=
          get_position_eq_zero_of_not_mem_keys rest s h.1
        have hget : get_position ((s, v) :: rest) s = v := by
          simp [get_position, List.lookup]
        by_cases hv : v = 0
        · subst hv
          rw [hget]
          have hfilter : get_all_positions ((s, (0 : ℚ)) :: rest) = get_all_positions rest := by
            simp [get_all_positions, List.filter_cons]
          rw [hfilter, ihr, h0]
        · have hfilter :
              get_all_positions ((s, v) :: rest) = (s, v) :: get_all_positions rest := by
            simp [get_all_positions, List.filter_cons, hv]
          rw [hfilter, hget]
          simp [List.lookup, hv]
      · have hb : (s == k) = false := by simp [hsk]
        have hget : get_position ((k, v) :: rest) s = get_position rest s := by
          simp [get_position, List.lookup, hb]
        rw [hget, ← ihr]
        by_cases hv : v = 0
        · subst hv
          simp [get_all_positions, List.filter_cons]
        · have hfilter :
              get_all_positions ((k, v) :: rest) = (k, v) :: get_all_positions rest := by
            simp [get_all_positions, List.filter_cons, hv]
          rw [hfilter]
          simp [List.lookup, hb]

theorem update_position_fst (st : BotState) (sym : String) (q : ℚ) (b w : Bool) :
    (update_position st sym q b w).1 =
      if b then get_position st.positions sym + |q|
      else get_position st.positions sym - |q| := rfl

theorem update_position_positions (st : BotState) (sym : String) (q : ℚ) (b w : Bool) :
    (update_position st sym q b w).2.positions =
      setPos st.positions sym (update_position st sym q b w).1 := rfl

theorem get_position_update (st : BotState) (sym : String) (q : ℚ) (b w : Bool) (t : String) :
    get_position (update_position st sym q b w).2.positions t =
      if t = sym then (update_position st sym q b w).1 else get_position st.positions t := by
  rw [update_position_positions, get_position_setPos]

theorem signedSum_nil (s : String) : signedSum [] s = 0 := rfl

theorem signedSum_cons (f : Fill) (rest : List Fill) (s : String) :
    signedSum (f :: rest) s =
      (if f.symbol = s then signedQty f else 0) + signedSum rest s := by
  by_cases h : f.symbol = s
  · have hb : (f.symbol == s) = true := by simp [h]
    simp [signedSum, List.filter_cons, hb, h]
  · have hb : (f.symbol == s) = false := by simp [h]
    simp [signedSum, List.filter_cons, hb, h]

theorem applyFills_cons (st : BotState) (f : Fill) (rest : List Fill) :
    applyFills st (f :: rest) =
      applyFills (update_position st f.symbol f.quantity f.is_buy true).2 rest := rfl

theorem get_applyFills (fills : List Fill) (st : BotState) (s : String) :
    get_position (applyFills st fills).positions s =
      get_position st.positions s + signedSum fills s := by
  induction fills generalizing st with
  | nil => simp [applyFills, signedSum_nil]
  | cons f rest ih =>
      rw [applyFills_cons, ih, get_position_update, signedSum_cons, update_position_fst]
      by_cases hs : s = f.symbol
      · subst hs
        simp only [if_pos rfl, signedQty]
        cases hb : f.is_buy <;> simp <;> ring
      · rw [if_neg hs, if_neg (fun hh => hs hh.symm)]
        ring

/-! ### Claim theorems -/

/-- C2: starting from the empty ledger, after any sequence of
`apply_fill` (`update_position`) calls the net quantity of each symbol
equals the sum of the signed absolute quantities applied to that
symbol (`+|q|` for buys, `-|q|` for sells) — the sum ranges over the
subsequence of fills addressed to that symbol only, so the result is
independent of interleaving with other symbols — and every
`update_position` call returns exactly the net quantity its symbol
holds in the resulting state. -/
theorem spec_C2 (fills : List Fill) (s : String) :
    get_position (applyFills emptyState fills).positions s = signedSum fills s ∧
    (∀ (st : BotState) (sym : String) (q : ℚ) (b w : Bool),
      (update_position st sym q b w).1 =
        get_position (update_position st sym q b w).2.positions sym) ∧
    ∀ fills2 : List Fill,
      fills2.filter (fun f => f.symbol == s) = fills.filter (fun f => f.symbol == s) →
      get_position (applyFills emptyState fills2).positions s =
        get_position (applyFills emptyState fills).positions s := by
  have hsum : ∀ fs : List Fill,
      get_position (applyFills emptyState fs).positions s = signedSum fs s := by
    intro fs
    have h := get_applyFills fs emptyState s
    simpa [emptyState, get_position, List.lookup] using h
  refine ⟨hsum fills, ?_, ?_⟩
  · intro st sym q b w
    rw [get_position_update, if_pos rfl]
  · intro fills2 hf
    rw [hsum fills2, hsum fills]
    simp only [signedSum, hf]

/-- Witness for C2: two interleavings with the same subsequence of
fills for symbol A give A the same net quantity. -/
theorem spec_C2_witness :
    ([⟨"B", 1, true⟩, ⟨"A", 2, true⟩] : List Fill).filter (fun f => f.symbol == "A") =
      ([⟨"A", 2, true⟩, ⟨"B", 1, true⟩] : List Fill).filter (fun f => f.symbol == "A") ∧
    get_position (applyFills emptyState [⟨"B", 1, true⟩, ⟨"A", 2, true⟩]).positions "A" =
      get_position (applyFills emptyState [⟨"A", 2, true⟩, ⟨"B", 1, true⟩]).positions "A" :=
  ⟨rfl,
   (spec_C2 [⟨"A", 2, true⟩, ⟨"B", 1, true⟩] "A").2.2
     [⟨"B", 1, true⟩, ⟨"A", 2, true⟩] rfl⟩

/-- C5: loading the store immediately after a successful save
reproduces exactly the in-memory mapping that was saved. -/
theorem spec_C5 (ps : Positions) (store : StoreState) :
    load_positions (save_positions ps store true) = ps := rfl

/-- C7: `get_position` returns the recorded net quantity of the
symbol, `0` when the symbol has no record, and in particular `0` on
the initial empty ledger; it is a total function, so it never fails. -/
theorem spec_C7 (ps : Positions) (s : String) :
    (∀ v : ℚ, ps.lookup s = some v → get_position ps s = v) ∧
    (ps.lookup s = none → get_position ps s = 0) ∧
    get_position emptyState.positions s = 0 := by
  refine ⟨?_, ?_, ?_⟩
  · intro v hv
    simp [get_position, hv]
  · intro hv
    simp [get_position, hv]
  · simp [get_position, emptyState, List.lookup]

/-- Witness for C7 at a concrete one-entry ledger. -/
theorem spec_C7_witness :
    get_position [("BTCUSDT", (2 : ℚ))] "BTCUSDT" = 2 ∧
    get_position [("BTCUSDT", (2 : ℚ))] "ETHUSDT" = 0 :=
  ⟨(spec_C7 [("BTCUSDT", (2 : ℚ))] "BTCUSDT").1 2 rfl,
   (spec_C7 [("BTCUSDT", (2 : ℚ))] "ETHUSDT").2.1 rfl⟩

/-- C8: loading an absent, unreadable or corrupt store yields the
empty mapping without raising (the source catches the decode and I/O
errors and logs them), and loading a readable store yields exactly the
stored mapping. -/
theorem spec_C8 :
    load_positions StoreState.absent = [] ∧
    load_positions StoreState.corrupt = [] ∧
    ∀ d : Positions, load_positions (StoreState.stored d) = d :=
  ⟨rfl, rfl, fun _ => rfl⟩

/-- C9: when the store write fails, `update_position` still holds the
new net quantity in memory, still returns that quantity, and returns
normally — the `IOError` is caught and logged inside
`_save_positions`, never raised to the caller. -/
theorem spec_C9 (st : BotState) (sym : String) (q : ℚ) (b : Bool) :
    get_position (update_position st sym q b false).2.positions sym =
      (update_position st sym q b false).1 ∧
    (update_position st sym q b false).1 =
      (if b then get_position st.positions sym + |q|
       else get_position st.positions sym - |q|) := by
  refine ⟨?_, update_position_fst st sym q b false⟩
  rw [get_position_update, if_pos rfl]

/-- C1 counterexample: a MARKET order whose single status query
returns `NEW` still updates the ledger — the net quantity of BTCUSDT
moves from 0 to 1, refuting the claim for MARKET orders. -/
theorem spec_C1_counterexample :
    get_position emptyState.positions "BTCUSDT" = 0 ∧
    (placedState (place_market_order emptyState
        { orderId := 7, statusResult := { orderId := 7, status := "NEW", executedQty := 0 } }
        true "BTCUSDT" "BUY" (some 1))).map
      (fun s2 => get_position s2.positions "BTCUSDT") = some 1 := by
  constructor
  · rfl
  · have hps : placedState (place_market_order emptyState
        { orderId := 7, statusResult := { orderId := 7, status := "NEW", executedQty := 0 } }
        true "BTCUSDT" "BUY" (some 1)) =
        some (update_position emptyState "BTCUSDT" 1 (strUpper "BUY" == "BUY") true).2 := rfl
    rw [hps, Option.map_some', get_position_update, if_pos rfl, update_position_fst]
    have hb : (strUpper "BUY" == "BUY") = true := by decide
    simp [hb, get_position, emptyState, List.lookup]

/-- C1 (amended): a LIMIT or STOP_LIMIT order whose single status
query returns `NEW` or `PARTIALLY_FILLED` leaves the bot state — in
particular every symbol's net quantity — unchanged; a MARKET order,
by contrast, updates the ledger unconditionally, moving the symbol's
net quantity by the signed absolute quantity even under those
statuses. -/
theorem spec_C1_amended (st : BotState) (env : GatewayEnv) (w : Bool)
    (symbol side : String) (q p sp : ℚ)
    (h : env.statusResult.status = "NEW" ∨ env.statusResult.status = "PARTIALLY_FILLED") :
    placedState (place_limit_order st env w symbol side (some q) (some p)) = some st ∧
    placedState (place_stop_limit_order st env w symbol side
      (some q) (some p) (some sp)) = some st ∧
    (placedState (place_market_order st env w symbol side (some q))).map
        (fun s2 => get_position s2.positions symbol) =
      some (if strUpper side == "BUY" then get_position st.positions symbol + |q|
            else get_position st.positions symbol - |q|) := by
  have hstat : (env.statusResult.status == "FILLED") = false := by
    rcases h with h | h <;> simp [h]
  refine ⟨?_, ?_, ?_⟩
  · simp [place_limit_order, placedState, hstat]
  · simp [place_stop_limit_order, placedState, hstat]
  · have hps : placedState (place_market_order st env w symbol side (some q)) =
        some (update_position st symbol q (strUpper side == "BUY") w).2 := rfl
    rw [hps, Option.map_some', get_position_update, if_pos rfl, update_position_fst]

/-- Witness for the amended C1 at a concrete LIMIT order with status
`NEW`. -/
theorem spec_C1_witness :
    (("NEW" : String) = "NEW" ∨ ("NEW" : String) = "PARTIALLY_FILLED") ∧
    placedState (place_limit_order emptyState
        { orderId := 7, statusResult := { orderId := 7, status := "NEW", executedQty := 0 } }
        true "BTCUSDT" "BUY" (some 1) (some 5)) = some emptyState :=
  ⟨Or.inl rfl,
   (spec_C1_amended emptyState
      { orderId := 7, statusResult := { orderId := 7, status := "NEW", executedQty := 0 } }
      true "BTCUSDT" "BUY" 1 5 5 (Or.inl rfl)).1⟩

/-- C3: a missing required field fails with a `ValueError` before any
gateway contact — MARKET without quantity, LIMIT without quantity or
price, STOP_LIMIT without quantity, price or stop price all return the
error with an empty gateway-call list; in particular a LIMIT buy of
0.01 BTCUSDT with no limit price does. -/
theorem spec_C3 (st : BotState) (env : GatewayEnv) (w : Bool)
    (symbol side : String) (q p sp : Option ℚ) :
    place_market_order st env w symbol side none =
      (Except.error "Quantity must be specified for market orders", []) ∧
    (q = none ∨ p = none →
      place_limit_order st env w symbol side q p =
        (Except.error "Both quantity and price must be specified for limit orders", [])) ∧
    (q = none ∨ p = none ∨ sp = none →
      place_stop_limit_order st env w symbol side q p sp =
        (Except.error
          "Quantity, price, and stop_price must be specified for stop limit orders", [])) ∧
    place_limit_order st env w "BTCUSDT" "BUY" (some (1 / 100)) none =
      (Except.error "Both quantity and price must be specified for limit orders", []) := by
  refine ⟨rfl, ?_, ?_, rfl⟩
  · rintro (h | h) <;> subst h
    · cases p <;> rfl
    · cases q <;> rfl
  · rintro (h | h | h) <;> subst h
    · cases p <;> cases sp <;> rfl
    · cases q <;> cases sp <;> rfl
    · cases q <;> cases p <;> rfl

/-- Witness for C3 at a concrete LIMIT order with a missing
quantity. -/
theorem spec_C3_witness :
    ((none : Option ℚ) = none ∨ (some (5 : ℚ) : Option ℚ) = none) ∧
    place_limit_order emptyState
        { orderId := 7, statusResult := { orderId := 7, status := "FILLED", executedQty := 0 } }
        true "BTCUSDT" "BUY" none (some 5) =
      (Except.error "Both quantity and price must be specified for limit orders", []) :=
  ⟨Or.inl rfl,
   (spec_C3 emptyState
      { orderId := 7, statusResult := { orderId := 7, status := "FILLED", executedQty := 0 } }
      true "BTCUSDT" "BUY" none (some 5) none).2.1 (Or.inl rfl)⟩

/-- C4: when the single status query returns `FILLED`, each of the
three place functions settles the ledger by the full original request
quantity — whatever `executed_quantity` the gateway reported, since
`env.statusResult.executedQty` is arbitrary here — moving the symbol's
net quantity by `+Q` when the upper-cased side is BUY and by `−Q`
otherwise (so for side SELL). -/
theorem spec_C4 (st : BotState) (env : GatewayEnv) (w : Bool)
    (symbol side : String) (q p sp : ℚ)
    (hq : 0 < q) (hstat : env.statusResult.status = "FILLED") :
    (placedState (place_market_order st env w symbol side (some q))).map
        (fun s2 => get_position s2.positions symbol) =
      some (get_position st.positions symbol +
        (if strUpper side == "BUY" then q else -q)) ∧
    (placedState (place_limit_order st env w symbol side (some q) (some p))).map
        (fun s2 => get_position s2.positions symbol) =
      some (get_position st.positions symbol +
        (if strUpper side == "BUY" then q else -q)) ∧
    (placedState (place_stop_limit_order st env w symbol side
        (some q) (some p) (some sp))).map
        (fun s2 => get_position s2.positions symbol) =
      some (get_position st.positions symbol +
        (if strUpper side == "BUY" then q else -q)) := by
  have habs : |q| = q := abs_of_pos hq
  have hb : (env.statusResult.status == "FILLED") = true := by simp [hstat]
  have hmove : ∀ s2 : BotState,
      s2 = (update_position st symbol q (strUpper side == "BUY") w).2 →
      get_position s2.positions symbol =
        get_position st.positions symbol +
          (if strUpper side == "BUY" then q else -q) := by
    intro s2 hs2
    subst hs2
    rw [get_position_update, if_pos rfl, update_position_fst, habs]
    cases strUpper side == "BUY" <;> simp [sub_eq_add_neg]
  refine ⟨?_, ?_, ?_⟩
  · have hps : placedState (place_market_order st env w symbol side (some q)) =
        some (update_position st symbol q (strUpper side == "BUY") w).2 := rfl
    rw [hps, Option.map_some', hmove _ rfl]
  · have hps : placedState (place_limit_order st env w symbol side (some q) (some p)) =
        some (update_position st symbol q (strUpper side == "BUY") w).2 := by
      simp [place_limit_order, placedState, hb]
    rw [hps, Option.map_some', hmove _ rfl]
  · have hps : placedState (place_stop_limit_order st env w symbol side
        (some q) (some p) (some sp)) =
        some (update_position st symbol q (strUpper side == "BUY") w).2 := by
      simp [place_stop_limit_order, placedState, hb]
    rw [hps, Option.map_some', hmove _ rfl]

/-- Witness for C4 at a concrete FILLED market buy of 2 BTCUSDT whose
reported executed quantity (9) differs from the request quantity. -/
theorem spec_C4_witness :
    (0 : ℚ) < 2 ∧
    (placedState (place_market_order emptyState
        { orderId := 7, statusResult := { orderId := 7, status := "FILLED", executedQty := 9 } }
        true "BTCUSDT" "BUY" (some 2))).map
      (fun s2 => get_position s2.positions "BTCUSDT") = some 2 := by
  have h := (spec_C4 emptyState
      { orderId := 7, statusResult := { orderId := 7, status := "FILLED", executedQty := 9 } }
      true "BTCUSDT" "BUY" 2 1 1 (by norm_num) rfl).1
  refine ⟨by norm_num, ?_⟩
  rw [h]
  have hb : (strUpper "BUY" == "BUY") = true := by decide
  simp [hb, get_position, emptyState, List.lookup]

/-- C6: when an `apply_fill` brings a symbol's net quantity to zero,
the record stays present in the mapping with value zero (it is not
removed), `get_position` returns 0 for it, and the snapshot excludes
it; in general the snapshot lists exactly the symbols whose net
quantity is non-zero, each with that quantity. -/
theorem spec_C6 (st : BotState) (sym : String) (q : ℚ) (b w : Bool)
    (hnd : (st.positions.map Prod.fst).Nodup)
    (h0 : (update_position st sym q b w).1 = 0) :
    (update_position st sym q b w).2.positions.lookup sym = some 0 ∧
    get_position (update_position st sym q b w).2.positions sym = 0 ∧
    (get_all_positions (update_position st sym q b w).2.positions).lookup sym = none ∧
    ∀ t : String,
      (get_all_positions (update_position st sym q b w).2.positions).lookup t =
        if get_position (update_position st sym q b w).2.positions t = 0 then none
        else some (get_position (update_position st sym q b w).2.positions t) := by
  have hnd2 : ((update_position st sym q b w).2.positions.map Prod.fst).Nodup := by
    rw [update_position_positions]
    exact nodup_keys_setPos _ _ _ hnd
  have hget : get_position (update_position st sym q b w).2.positions sym = 0 := by
    rw [get_position_update, if_pos rfl, h0]
  have hsnap := fun t => lookup_snapshot (update_position st sym q b w).2.positions hnd2 t
  refine ⟨?_, hget, ?_, hsnap⟩
  · rw [update_position_positions, lookup_setPos, if_pos rfl, h0]
  · rw [hsnap sym, if_pos hget]

/-- Witness for C6: selling the full 3/2 ETHUSDT holding zeroes the
net quantity and the snapshot then excludes the symbol. -/
theorem spec_C6_witness :
    (([("ETHUSDT", (3 : ℚ) / 2)] : Positions).map Prod.fst).Nodup ∧
    (update_position { positions := [("ETHUSDT", (3 : ℚ) / 2)], store := StoreState.absent }
      "ETHUSDT" (3 / 2) false true).1 = 0 ∧
    (get_all_positions
      (update_position { positions := [("ETHUSDT", (3 : ℚ) / 2)], store := StoreState.absent }
        "ETHUSDT" (3 / 2) false true).2.positions).lookup "ETHUSDT" = none := by
  have hnd : (([("ETHUSDT", (3 : ℚ) / 2)] : Positions).map Prod.fst).Nodup := by simp
  have h0 : (update_position
      { positions := [("ETHUSDT", (3 : ℚ) / 2)], store := StoreState.absent }
      "ETHUSDT" (3 / 2) false true).1 = 0 := by
    rw [update_position_fst]
    have habs : |(3 / 2 : ℚ)| = 3 / 2 := abs_of_pos (by norm_num)
    simp [habs, get_position, List.lookup]
  exact ⟨hnd, h0,
    (spec_C6 { positions := [("ETHUSDT", (3 : ℚ) / 2)], store := StoreState.absent }
      "ETHUSDT" (3 / 2) false true hnd h0).2.2.1⟩

/-- C10: the place functions check only that the quantity (and the
prices) are present, never that they are positive: any present
quantity — zero or negative included — passes validation and the order
is submitted to the gateway, and a settled order moves the ledger by
the absolute value of the quantity in the side's direction;
concretely, a settled BUY of quantity −5 increases the net quantity
by 5. -/
theorem spec_C10 (st : BotState) (env : GatewayEnv) (w : Bool)
    (symbol side : String) (q p sp : ℚ) :
    (place_market_order st env w symbol side (some q)).2 =
      [GatewayCall.createOrder
        { symbol := symbol, side := side, type := "MARKET", timeInForce := none,
          quantity := q, price := none, stopPrice := none },
       GatewayCall.getOrder symbol env.orderId] ∧
    (placedState (place_market_order st env w symbol side (some q))).isSome = true ∧
    (placedState (place_limit_order st env w symbol side (some q) (some p))).isSome = true ∧
    (placedState (place_stop_limit_order st env w symbol side
      (some q) (some p) (some sp))).isSome = true ∧
    (placedState (place_market_order st env w symbol side (some q))).map
        (fun s2 => get_position s2.positions symbol) =
      some (get_position st.positions symbol +
        (if strUpper side == "BUY" then |q| else -|q|)) ∧
    (placedState (place_market_order emptyState env w "BTCUSDT" "BUY" (some (-5)))).map
        (fun s2 => get_position s2.positions "BTCUSDT") = some 5 := by
  refine ⟨rfl, rfl, ?_, ?_, ?_, ?_⟩
  · cases hb : env.statusResult.status == "FILLED" <;>
      simp [place_limit_order, placedState, hb]
  · cases hb : env.statusResult.status == "FILLED" <;>
      simp [place_stop_limit_order, placedState, hb]
  · have hps : placedState (place_market_order st env w symbol side (some q)) =
        some (update_position st symbol q (strUpper side == "BUY") w).2 := rfl
    rw [hps, Option.map_some', get_position_update, if_pos rfl, update_position_fst]
    cases hbb : strUpper side == "BUY" <;> simp [sub_eq_add_neg]
  · have hps : placedState (place_market_order emptyState env w "BTCUSDT" "BUY" (some (-5))) =
        some (update_position emptyState "BTCUSDT" (-5) (strUpper "BUY" == "BUY") w).2 := rfl
    rw [hps, Option.map_some', get_position_update, if_pos rfl, update_position_fst]
    have hb : (strUpper "BUY" == "BUY") = true := by decide
    have habs : |(-5 : ℚ)| = 5 := by norm_num
    simp [hb, habs, get_position, emptyState, List.lookup]

end TradingBot
